import Mathlib

/-!
Shallow embedding of the Ballista scheduler gRPC server
(`ballista/rust/scheduler/src/lib.rs`) and proofs about its handlers.

Pure Rust control flow is translated into Lean functions; the state store
facade (the `state` module, described in the specification as a typed
key/value layer with upsert semantics) is modelled as association lists.
Handlers take the scheduler state explicitly and return the new state
together with the gRPC outcome.
-/

namespace BallistaScheduler

/-- gRPC status codes produced by the scheduler handlers (tonic::Status). -/
inductive GrpcStatus
  | internal (msg : String)
  | invalidArgument (msg : String)
  | failedPrecondition (msg : String)
  | notFound (msg : String)
  | unimplemented (msg : String)
  deriving DecidableEq, Repr

/-- Rust `BallistaError` as used by `fetch_tasks` / `schedule_job`. -/
inductive BallistaError
  | general (msg : String)
  | grpcError (s : GrpcStatus)
  deriving DecidableEq, Repr

/-- Outcome of a handler that may also panic (`unwrap` on `None`). -/
inductive HandlerOutcome (α : Type)
  | ok (a : α)
  | err (s : GrpcStatus)
  | panicked
  deriving DecidableEq, Repr

/-- protobuf `PartitionId`: identifies one task. -/
structure PartitionId where
  job_id : String
  stage_id : Nat
  partition_id : Nat
  deriving DecidableEq, Repr

/-- protobuf `task_status::Status` variants. -/
inductive TaskStatusVariant
  | running (executor_id : String)
  | completed (executor_id : String)
  | failed (error : String)
  deriving DecidableEq, Repr

/-- protobuf `TaskStatus`: `status = none` is a freshly persisted Pending task. -/
structure TaskStatus where
  task_id : Option PartitionId
  status : Option TaskStatusVariant
  deriving DecidableEq, Repr

/-- protobuf `job_status::Status` variants. -/
inductive JobStatusVariant
  | queued
  | running
  | completed
  | failed (error : String)
  deriving DecidableEq, Repr

/-- Rust `ExecutorMetadata` (specification flattened to its `task_slots` field). -/
structure ExecutorMetadata where
  id : String
  host : String
  port : Nat
  grpc_port : Nat
  task_slots : Nat
  deriving DecidableEq, Repr

/-- Rust `ExecutorData`: the slot record. The Rust fields are `u32`. -/
structure ExecutorData where
  executor_id : String
  total_task_slots : Nat
  available_task_slots : Nat
  deriving DecidableEq, Repr

/-- Output partitioning descriptor carried by a shuffle writer. -/
inductive Partitioning
  | hash (num_exprs : Nat) (partition_count : Nat)
  deriving DecidableEq, Repr

/-- A reconstituted physical plan, as far as the scheduler inspects it:
it only ever downcasts the root to `ShuffleWriterExec`. -/
inductive ExecutionPlan
  | shuffleWriterExec (stage_id : Nat) (output_partitioning : Option Partitioning)
  | otherExec (name : String)
  deriving DecidableEq, Repr

/-- protobuf `TaskDefinition` sent to executors (plan bytes abstracted). -/
structure TaskDefinition where
  plan : List Nat
  task_id : Option PartitionId
  output_partitioning : Option Partitioning
  deriving DecidableEq, Repr

/-- Stand-in for the opaque physical-plan codec (`try_encode`); the
scheduler never inspects the bytes it produces. -/
def encodePlan : ExecutionPlan → List Nat
  | .shuffleWriterExec sid _ => [0, sid]
  | .otherExec _ => [1]

/-- protobuf `ExecutorRegistration` (specification flattened to `task_slots`). -/
structure ExecutorRegistration where
  id : String
  optional_host : Option String
  port : Nat
  grpc_port : Nat
  task_slots : Nat
  deriving DecidableEq, Repr

/-- Rust `TaskSchedulingPolicy`. -/
inductive Policy
  | pullStaged
  | pushStaged
  deriving DecidableEq, Repr

/-- Modelled from the spec: upsert into the key/value store facade
(`put` on `/{ns}/{kind}/{key}`); the `state` module is absent from the
sources, the spec describes its save operations as upserts by key. -/
def upsert {κ α : Type} [DecidableEq κ] (k : κ) (v : α) :
    List (κ × α) → List (κ × α)
  | [] => [(k, v)]
  | (k', v') :: rest => if k' = k then (k, v) :: rest else (k', v') :: upsert k v rest

/-- Modelled from the spec: `get` on the key/value store facade. -/
def lookupKey {κ α : Type} [DecidableEq κ] (k : κ) :
    List (κ × α) → Option α
  | [] => none
  | (k', v') :: rest => if k' = k then some v' else lookupKey k rest

/-- Number of entries stored under key `k`. -/
def countKey {κ α : Type} [DecidableEq κ] (k : κ) (l : List (κ × α)) : Nat :=
  (l.filter (fun kv => kv.1 = k)).length

/-- Modelled from the spec: `save_task_status` upserts the record keyed by
`(job_id, stage_id, partition_id)` (here: by the `task_id` field). -/
def saveTaskStatus (ts : TaskStatus) : List TaskStatus → List TaskStatus
  | [] => [ts]
  | t :: rest => if t.task_id = ts.task_id then ts :: rest else t :: saveTaskStatus ts rest

/-- Modelled from the spec: the durable scheduler state behind the
`SchedulerState` facade — executors, heartbeats, jobs, stage plans, tasks. -/
structure SchedState where
  executors_metadata : List (String × ExecutorMetadata)
  executors_data : List (String × ExecutorData)
  heartbeats : List (String × Nat)
  jobs : List (String × JobStatusVariant)
  stage_plans : List ((String × Nat) × ExecutionPlan)
  tasks : List TaskStatus
  deriving DecidableEq, Repr

def emptyState : SchedState := ⟨[], [], [], [], [], []⟩

/-- State operation `save_job_metadata`. -/
def saveJobStatus (st : SchedState) (job : String) (s : JobStatusVariant) : SchedState :=
  { st with jobs := upsert job s st.jobs }

/-- Fold `save_task_status` over a batch of reported statuses. -/
def saveStatuses (l : List TaskStatus) (st : SchedState) : SchedState :=
  l.foldl (fun s ts => { s with tasks := saveTaskStatus ts s.tasks }) st

/-! Section: the ExternalScaler handler `is_active`. -/

/-- The terminal test inside `is_active`:
`matches!(status, Some(Completed(_)) | Some(Failed(_)))`. -/
def terminalStatus : Option TaskStatusVariant → Bool
  | some (.completed _) => true
  | some (.failed _) => true
  | _ => false

/-- Handler `SchedulerServer::is_active` (ExternalScaler): any task in
`get_all_tasks()` whose status is neither Completed nor Failed. -/
def is_active (st : SchedState) : Bool :=
  st.tasks.any (fun task => ! terminalStatus task.status)

/-! Section: the `get_job_status` handler. -/

/-- Handler `SchedulerServer::get_job_status`: looks the job up and calls
`.unwrap()` on the option — a missing record is a panic, not an error. -/
def get_job_status (st : SchedState) (job_id : String) :
    HandlerOutcome JobStatusVariant :=
  match lookupKey job_id st.jobs with
  | some job_meta => .ok job_meta
  | none => .panicked

/-! Section: the task-assignment primitive of the state facade. -/

/-- Modelled from the spec: readiness of a stage — every task of every
stage with a smaller id in the same job is Completed (spec section 4.4 and
invariant 3; the `state` module implementing it is absent from src). -/
def stageReady (st : SchedState) (job : String) (stage : Nat) : Bool :=
  st.tasks.all fun t =>
    match t.task_id with
    | some pid =>
        if pid.job_id = job ∧ pid.stage_id < stage then
          match t.status with
          | some (.completed _) => true
          | _ => false
        else true
    | none => true

/-- Modelled from the spec: the Pending (unassigned, `status = none`)
tasks of a job whose stage is ready. -/
def pendingReady (st : SchedState) (job : String) : List PartitionId :=
  st.tasks.filterMap fun t =>
    match t.task_id, t.status with
    | some pid, none =>
        if pid.job_id = job ∧ stageReady st job pid.stage_id then some pid else none
    | _, _ => none

/-- Earlier of two task ids in the deterministic selection order:
ascending `stage_id`, then ascending `partition_id`. -/
def earlierTask (a b : PartitionId) : PartitionId :=
  if b.stage_id < a.stage_id ∨ (b.stage_id = a.stage_id ∧ b.partition_id < a.partition_id)
  then b else a

/-- Minimum of a candidate list in the selection order. -/
def minTask : List PartitionId → Option PartitionId
  | [] => none
  | p :: ps => some (ps.foldl earlierTask p)

/-- Decrement `available_task_slots` of the slot record of an executor. -/
def decrementSlots (st : SchedState) (executor_id : String) : SchedState :=
  match lookupKey executor_id st.executors_data with
  | some d =>
      let d' : ExecutorData := { d with available_task_slots := d.available_task_slots - 1 }
      { st with executors_data := upsert executor_id d' st.executors_data }
  | none => st

/-- Modelled from the spec: `assign_next_schedulable_job_task` — select
the first Pending task of the job whose stage is ready (ascending
`stage_id`, then `partition_id`), mark it Running on the executor,
decrement the available slots of the executor, and return it with its
reconstituted stage plan. -/
def assign_next_schedulable_job_task (st : SchedState) (executor_id job : String) :
    Option (TaskStatus × ExecutionPlan) × SchedState :=
  match minTask (pendingReady st job) with
  | none => (none, st)
  | some pid =>
    match lookupKey (pid.job_id, pid.stage_id) st.stage_plans with
    | none => (none, st)
    | some plan =>
      let newStatus : TaskStatus := ⟨some pid, some (.running executor_id)⟩
      let st1 := { st with tasks := saveTaskStatus newStatus st.tasks }
      (some (newStatus, plan), decrementSlots st1 executor_id)

/-- Jobs whose persisted status is Running, in insertion order. -/
def runningJobs (st : SchedState) : List String :=
  st.jobs.filterMap fun kv => if kv.2 = .running then some kv.1 else none

/-- Modelled from the spec: `assign_next_schedulable_task` — iterate over
Running jobs in insertion order and return the first assigned task. -/
def assignFirst (st : SchedState) (executor_id : String) :
    List String → Option (TaskStatus × ExecutionPlan) × SchedState
  | [] => (none, st)
  | j :: js =>
    match assign_next_schedulable_job_task st executor_id j with
    | (some r, st') => (some r, st')
    | (none, _) => assignFirst st executor_id js

/-! Section: the `poll_work` handler. -/

/-- protobuf `PollWorkParams`. -/
structure PollWorkParams where
  metadata : Option ExecutorRegistration
  can_accept_task : Bool
  task_status : List TaskStatus
  deriving DecidableEq, Repr

/-- Executor metadata as reconstructed inside `poll_work` and
`register_executor` (host falls back to the request's remote address). -/
def mkMetadata (remote_host : String) (m : ExecutorRegistration) : ExecutorMetadata :=
  { id := m.id
    host := m.optional_host.getD remote_host
    port := m.port
    grpc_port := m.grpc_port
    task_slots := m.task_slots }

/-- The state writes `poll_work` performs before assignment: first-poll
registration of executor metadata, heartbeat, then the reported statuses. -/
def pollWorkSaves (now : Nat) (remote_host : String) (st : SchedState)
    (m : ExecutorRegistration) (statuses : List TaskStatus) : SchedState :=
  let meta := mkMetadata remote_host m
  let st1 :=
    match lookupKey m.id st.executors_metadata with
    | some _ => st
    | none => { st with executors_metadata := upsert meta.id meta st.executors_metadata }
  let st2 := { st1 with heartbeats := upsert meta.id now st1.heartbeats }
  saveStatuses statuses st2

/-- The `can_accept_task` arm of `poll_work`: assign the next schedulable
task, downcast its plan root to `ShuffleWriterExec`, and either return the
encoded `TaskDefinition` or fail with InvalidArgument when the root is not
a shuffle writer. -/
def pollAssign (st : SchedState) (executor_id : String) :
    SchedState × Except GrpcStatus (Option TaskDefinition) :=
  match assignFirst st executor_id (runningJobs st) with
  | (none, st3) => (st3, .ok none)
  | (some (status, plan), st3) =>
    match plan with
    | .shuffleWriterExec sid outp =>
        (st3, .ok (some
          { plan := encodePlan (.shuffleWriterExec sid outp)
            task_id := status.task_id
            output_partitioning := outp }))
    | .otherExec _ =>
        (st3, .error (.invalidArgument
          "Task root plan was not a ShuffleWriterExec"))

/-- Handler `SchedulerServer::poll_work`: rejected outright under the
push policy; otherwise upserts metadata/heartbeat, persists the reported
statuses, and (when `can_accept_task`) hands out at most one task via
`pollAssign`. -/
def poll_work (policy : Policy) (now : Nat) (remote_host : String)
    (st : SchedState) (req : PollWorkParams) :
    SchedState × Except GrpcStatus (Option TaskDefinition) :=
  if policy = .pushStaged then
    (st, .error (.failedPrecondition
      "Bad request because poll work is not supported for push-based task scheduling"))
  else
    match req.metadata with
    | none => (st, .error (.invalidArgument "Missing metadata in request"))
    | some m =>
      if req.can_accept_task then
        pollAssign (pollWorkSaves now remote_host st m req.task_status) m.id
      else
        (pollWorkSaves now remote_host st m req.task_status, .ok none)

/-! Section: the `register_executor` handler. -/

/-- protobuf `RegisterExecutorParams`. -/
structure RegisterExecutorParams where
  metadata : Option ExecutorRegistration
  deriving DecidableEq, Repr

/-- The executors client pool: a map from `executor_id` to an opened gRPC
client, modelled by the executor url it was opened against. -/
abbrev ExecutorsPool : Type := List (String × String)

/-- Handler `SchedulerServer::register_executor`: connect to the executor
(reachability check, modelled by `connectOk`), insert the client into the
pool, persist metadata, and initialize the slot record with
`total = available = task_slots`. -/
def register_executor (connectOk : Bool) (remote_host : String)
    (pool : ExecutorsPool) (st : SchedState) (req : RegisterExecutorParams) :
    ExecutorsPool × SchedState × Except GrpcStatus Bool :=
  match req.metadata with
  | none => (pool, st, .error (.invalidArgument "Missing metadata in request"))
  | some m =>
    let meta := mkMetadata remote_host m
    if connectOk then
      let executor_url := "http://" ++ meta.host ++ ":" ++ toString meta.grpc_port
      let pool' := upsert meta.id executor_url pool
      let st1 := { st with executors_metadata := upsert meta.id meta st.executors_metadata }
      let d : ExecutorData :=
        { executor_id := meta.id
          total_task_slots := meta.task_slots
          available_task_slots := meta.task_slots }
      let st2 := { st1 with executors_data := upsert meta.id d st1.executors_data }
      (pool', st2, .ok true)
    else
      (pool, st, .error (.internal "Could not connect to executor"))

/-- The pool-and-state transformer of one successful `register_executor`
call (used to phrase idempotence of repeated identical registrations). -/
def registerStep (remote_host : String) (m : ExecutorRegistration)
    (ps : ExecutorsPool × SchedState) : ExecutorsPool × SchedState :=
  let r := register_executor true remote_host ps.1 ps.2 ⟨some m⟩
  (r.1, r.2.1)

/-! Section: the `update_task_status` handler. -/

/-- protobuf `UpdateTaskStatusParams`. -/
structure UpdateTaskStatusParams where
  executor_id : String
  task_status : List TaskStatus
  deriving DecidableEq, Repr

/-- The set of job ids touched by a status batch (the Rust code collects
them in a `HashSet`; modelled as first-occurrence dedup). -/
def collectJobs (l : List TaskStatus) : List String :=
  l.foldl
    (fun acc ts =>
      match ts.task_id with
      | some pid => if pid.job_id ∈ acc then acc else acc ++ [pid.job_id]
      | none => acc)
    []

/-- Handler `SchedulerServer::update_task_status`: persists every reported
status, credits `available_task_slots` by the raw number of reported
statuses (a `u32` wrapping add) when the executor has a slot record —
merely logging when it does not — and enqueues each touched job id on the
dispatch channel when a scheduler environment is present. Returns the
final state, the enqueued job ids, and the RPC outcome. -/
def update_task_status (hasEnv : Bool) (st : SchedState)
    (req : UpdateTaskStatusParams) :
    SchedState × List String × Except GrpcStatus Bool :=
  let st1 := saveStatuses req.task_status st
  let jobs := collectJobs req.task_status
  let num_tasks := req.task_status.length
  let st2 :=
    match lookupKey req.executor_id st1.executors_data with
    | some d =>
        let d' : ExecutorData :=
          { d with available_task_slots :=
              (d.available_task_slots + num_tasks) % 2 ^ 32 }
        { st1 with executors_data := upsert req.executor_id d' st1.executors_data }
    | none => st1
  let enqueued := if hasEnv then jobs else []
  (st2, enqueued, .ok true)

/-! Section: the push-mode `fetch_tasks` round-robin and the
`schedule_job` dispatch step. -/

/-- One inner sweep of the `fetch_tasks` loop over the executor list:
for each executor in order, stop when an executor has no remaining slots
(`break`), or when assignment yields no task (`has_tasks = false`);
otherwise build the `TaskDefinition`, decrement the in-memory slot count,
and continue. Returns the updated executors, the tasks newly assigned per
executor this sweep, their number, the `has_tasks` flag, and the state. -/
def sweepExecs (st : SchedState) (job : String) :
    List ExecutorData →
    Except BallistaError
      (List ExecutorData × List (List TaskDefinition) × Nat × Bool × SchedState)
  | [] => .ok ([], [], 0, true, st)
  | e :: es =>
    if e.available_task_slots = 0 then
      .ok (e :: es, (e :: es).map (fun _ => []), 0, true, st)
    else
      match assign_next_schedulable_job_task st e.executor_id job with
      | (none, st') => .ok (e :: es, (e :: es).map (fun _ => []), 0, false, st')
      | (some (status, plan), st') =>
        match plan with
        | .otherExec _ =>
            .error (.general "Task root plan was not a ShuffleWriterExec")
        | .shuffleWriterExec sid outp =>
          let td : TaskDefinition :=
            { plan := encodePlan (.shuffleWriterExec sid outp)
              task_id := status.task_id
              output_partitioning := outp }
          let e' : ExecutorData :=
            { e with available_task_slots := e.available_task_slots - 1 }
          match sweepExecs st' job es with
          | .error err => .error err
          | .ok (es', rets, n, ht, st'') =>
              .ok (e' :: es', [td] :: rets, n + 1, ht, st'')

/-- Append the tasks of one sweep to the accumulated per-executor lists. -/
def zipAppend (ret newRet : List (List TaskDefinition)) :
    List (List TaskDefinition) :=
  List.zipWith (· ++ ·) ret newRet

/-- The outer `loop` of `fetch_tasks`, with explicit fuel (the Rust loop
terminates because every continuing sweep assigns at least one task and
slots are finite). The loop exits when a sweep reports no more tasks or
when the first executor — the one with the most slots, the snapshot being
sorted descending — has none left. -/
def fetchLoop (job : String) :
    Nat → SchedState → List ExecutorData → List (List TaskDefinition) → Nat →
    Except BallistaError
      (List (List TaskDefinition) × Nat × List ExecutorData × SchedState)
  | 0, st, execs, ret, num => .ok (ret, num, execs, st)
  | fuel + 1, st, execs, ret, num =>
    match sweepExecs st job execs with
    | .error e => .error e
    | .ok (execs', newRets, n, has_tasks, st') =>
      let ret' := zipAppend ret newRets
      let num' := num + n
      if !has_tasks then .ok (ret', num', execs', st')
      else
        let has_executors :=
          match execs'.head? with
          | some e => decide (0 < e.available_task_slots)
          | none => false
        if !has_executors then .ok (ret', num', execs', st')
        else fetchLoop job fuel st' execs' ret' num'

/-- Method `SchedulerServer::fetch_tasks`: round-robin assignment of
ready tasks of one job across the available executors. Also returns the
mutated executor snapshot (the Rust code mutates the vector in place) and
the state after the assignments. -/
def fetch_tasks (st : SchedState) (execs : List ExecutorData) (job : String) :
    Except BallistaError
      (List (List TaskDefinition) × Nat × List ExecutorData × SchedState) :=
  fetchLoop job ((execs.map (·.available_task_slots)).sum + 1) st execs
    (execs.map fun _ => []) 0

/-- Observable actions of the dispatch worker, in program order. -/
inductive DispatchEvent
  | sleepMs (ms : Nat)
  | enqueueJob (job : String)
  | saveExecutorData (d : ExecutorData)
  | launchTask (executor_id : String) (tasks : List TaskDefinition)
  deriving DecidableEq, Repr

/-- The launch loop of `schedule_job`: for each executor (paired with its
assigned tasks), stop at the first empty assignment (round-robin implies
the rest are empty too); otherwise persist the post-reservation slot
record first and then issue the `LaunchTask` RPC. -/
def launchLoop (st : SchedState) :
    List (ExecutorData × List TaskDefinition) → SchedState × List DispatchEvent
  | [] => (st, [])
  | (ed, tasks) :: rest =>
    if tasks.isEmpty then (st, [])
    else
      let st1 := { st with executors_data := upsert ed.executor_id ed st.executors_data }
      let r := launchLoop st1 rest
      (r.1, .saveExecutorData ed :: .launchTask ed.executor_id tasks :: r.2)

/-- Modelled from the spec: `get_available_executors_data` returns a
snapshot of slot records filtered to executors whose last heartbeat is
within the liveness window, sorted by descending `available_task_slots`
(the `state` module implementing it is absent from src). -/
def insertDescBy (d : ExecutorData) : List ExecutorData → List ExecutorData
  | [] => [d]
  | e :: es =>
      if e.available_task_slots < d.available_task_slots then d :: e :: es
      else e :: insertDescBy d es

/-- Modelled from the spec: liveness filter plus descending sort of the
slot snapshot (see `insertDescBy`). -/
def get_available_executors_data (now window : Nat) (st : SchedState) :
    List ExecutorData :=
  let live := st.executors_data.filter fun kv =>
    match lookupKey kv.1 st.heartbeats with
    | some t => decide (now - t ≤ window)
    | none => false
  (live.map Prod.snd).foldr insertDescBy []

/-- Method `SchedulerServer::schedule_job` (the body of one dispatch-loop
iteration): snapshot the available executors; when the snapshot is empty,
sleep 100 ms, re-enqueue the job id, and return; otherwise fetch task
assignments and, per executor with a non-empty assignment, persist the
post-reservation slot count and then launch. Returns the final state and
the ordered trace of observable actions. -/
def schedule_job (now window : Nat) (st : SchedState) (job_id : String) :
    Except BallistaError (SchedState × List DispatchEvent) :=
  if (get_available_executors_data now window st).isEmpty then
    .ok (st, [.sleepMs 100, .enqueueJob job_id])
  else
    match fetch_tasks st (get_available_executors_data now window st) job_id with
    | .error e => .error e
    | .ok (ret, num_tasks, execs', st') =>
      if 0 < num_tasks then
        .ok (launchLoop st' (execs'.zip ret))
      else
        .ok (st', [])

/-! Section: `execute_query` and its detached background planning task. -/

/-- One query stage produced by the distributed planner: a shuffle-writer
rooted sub-plan with its output partition count. -/
structure Stage where
  stage_id : Nat
  plan : ExecutionPlan
  partition_count : Nat
  deriving DecidableEq, Repr

/-- Persist the Pending task records of one stage, stopping at the first
store failure (the `terr` oracle models `save_task_status` store errors). -/
def savePendingTasks (job : String) (stage_id : Nat)
    (terr : PartitionId → Option String) :
    List Nat → SchedState → SchedState × Option String
  | [], st => (st, none)
  | p :: ps, st =>
    let pid : PartitionId := ⟨job, stage_id, p⟩
    match terr pid with
    | some e => (st, some e)
    | none =>
        savePendingTasks job stage_id terr ps
          { st with tasks := saveTaskStatus ⟨some pid, none⟩ st.tasks }

/-- Persist the stages and their Pending tasks, stopping at the first
store failure (`serr` models `save_stage_plan` store errors). -/
def saveStages (job : String) (serr : Nat → Option String)
    (terr : PartitionId → Option String) :
    List Stage → SchedState → SchedState × Option String
  | [], st => (st, none)
  | sg :: sgs, st =>
    match serr sg.stage_id with
    | some e => (st, some e)
    | none =>
      let st1 := { st with stage_plans := upsert (job, sg.stage_id) sg.plan st.stage_plans }
      match savePendingTasks job sg.stage_id terr (List.range sg.partition_count) st1 with
      | (st2, some e) => (st2, some e)
      | (st2, none) => saveStages job serr terr sgs st2

/-- The detached planning task spawned by `execute_query`. The external
collaborators are oracles: `optimizeRes` (DataFusion logical optimization),
`physicalRes` (physical-plan creation), `planStages` (the distributed
planner), and the store-failure oracles `serr`/`terr`. Each failure takes
the `fail_job` path: persist `Failed` with the error and return. On the
success path the job is set Running before stage planning, the stages and
their Pending tasks are persisted, and the job id would then be enqueued
for dispatch. -/
def background_plan (st : SchedState) (job : String)
    (optimizeRes : Except String Unit)
    (physicalRes : Except String ExecutionPlan)
    (planStages : ExecutionPlan → Except String (List Stage))
    (serr : Nat → Option String) (terr : PartitionId → Option String) :
    SchedState × Option String :=
  match optimizeRes with
  | .error e => (saveJobStatus st job (.failed e), some e)
  | .ok _ =>
    match physicalRes with
    | .error e => (saveJobStatus st job (.failed e), some e)
    | .ok plan =>
      let st1 := saveJobStatus st job .running
      match planStages plan with
      | .error e => (saveJobStatus st1 job (.failed e), some e)
      | .ok stages =>
        match saveStages job serr terr stages st1 with
        | (st2, some e) => (saveJobStatus st2 job (.failed e), some e)
        | (st2, none) => (st2, none)

/-- The synchronous part of `SchedulerServer::execute_query`: decode or
plan the query (`parseOk` oracle; a failure is an Internal error before any
job exists), persist the `Queued` marker under a fresh `job_id`, spawn the
background planning task, and return the `job_id` immediately. -/
def execute_query (st : SchedState) (job_id : String) (parseOk : Bool) :
    SchedState × Except GrpcStatus String :=
  if parseOk then
    (saveJobStatus st job_id .queued, .ok job_id)
  else
    (st, .error (.internal "Error parsing request"))

/-! Section: concrete inputs used to evaluate the handlers. -/

/-- A state with one executor at 1 of 2 slots free and one already
terminal (Completed) task — the replay scenario for `update_task_status`. -/
def c1_state : SchedState :=
  { emptyState with
    executors_data := [("exec1", ⟨"exec1", 2, 1⟩)]
    tasks := [⟨some ⟨"j1", 0, 0⟩, some (.completed "exec1")⟩] }

/-- A replayed status batch: the single reported task is already terminal
in `c1_state`, so no task transitions out of Running. -/
def c1_req : UpdateTaskStatusParams :=
  ⟨"exec1", [⟨some ⟨"j1", 0, 0⟩, some (.completed "exec1")⟩]⟩

/-- A state whose only stage plan is not rooted at a `ShuffleWriterExec`,
with one Running job, one Pending task, and one live executor. -/
def c3_state : SchedState :=
  { emptyState with
    executors_data := [("e1", ⟨"e1", 2, 2⟩)]
    heartbeats := [("e1", 0)]
    jobs := [("j1", .running)]
    stage_plans := [(("j1", 0), .otherExec "bad")]
    tasks := [⟨some ⟨"j1", 0, 0⟩, none⟩] }

/-- A pull-mode poll willing to accept a task. -/
def c3_req : PollWorkParams :=
  ⟨some ⟨"e1", some "h", 50051, 50052, 2⟩, true, []⟩

/-- Discriminator: does the outcome carry a gRPC Internal error. -/
def resultIsInternal {α : Type} (r : Except GrpcStatus α) : Bool :=
  match r with
  | .error (.internal _) => true
  | _ => false

/-- A dispatchable state: one live executor with free slots, one Running
job with a Pending task whose stage plan is a proper shuffle writer. -/
def c5_state : SchedState :=
  { emptyState with
    executors_data := [("e1", ⟨"e1", 2, 2⟩)]
    heartbeats := [("e1", 0)]
    jobs := [("j1", .running)]
    stage_plans := [(("j1", 0), .shuffleWriterExec 0 (some (.hash 1 2)))]
    tasks := [⟨some ⟨"j1", 0, 0⟩, none⟩] }

/-- The state after `schedule_job` dispatches the single task of
`c5_state`: the task is Running on executor `e1` and one slot is taken. -/
def c5_state_after : SchedState :=
  { emptyState with
    executors_data := [("e1", ⟨"e1", 2, 1⟩)]
    heartbeats := [("e1", 0)]
    jobs := [("j1", .running)]
    stage_plans := [(("j1", 0), .shuffleWriterExec 0 (some (.hash 1 2)))]
    tasks := [⟨some ⟨"j1", 0, 0⟩, some (.running "e1")⟩] }

/-- The dispatch trace produced on `c5_state`: persist the
post-reservation slot record, then launch. -/
def c5_evs : List DispatchEvent :=
  [.saveExecutorData ⟨"e1", 2, 1⟩,
   .launchTask "e1" [⟨[0, 0], some ⟨"j1", 0, 0⟩, some (.hash 1 2)⟩]]

deriving instance DecidableEq for Except

/-! Section: store-level helper lemmas. -/

/-- Looking up a key right after upserting it yields the stored value. -/
theorem lookupKey_upsert_self {κ α : Type} [DecidableEq κ] (k : κ) (v : α)
    (l : List (κ × α)) : lookupKey k (upsert k v l) = some v := by
  induction l with
  | nil => simp [upsert, lookupKey]
  | cons kv rest ih =>
    by_cases h : kv.1 = k
    · simp [upsert, lookupKey, h]
    · simp [upsert, lookupKey, h, ih]

/-- Upserting the same key/value twice equals upserting once. -/
theorem upsert_idem {κ α : Type} [DecidableEq κ] (k : κ) (v : α)
    (l : List (κ × α)) : upsert k v (upsert k v l) = upsert k v l := by
  induction l with
  | nil => simp [upsert]
  | cons kv rest ih =>
    by_cases h : kv.1 = k
    · simp [upsert, h]
    · simp [upsert, h, ih]

/-- Unfolding `countKey` over a cons cell. -/
theorem countKey_cons {κ α : Type} [DecidableEq κ] (k : κ) (kv : κ × α)
    (l : List (κ × α)) :
    countKey k (kv :: l) = (if kv.1 = k then 1 else 0) + countKey k l := by
  by_cases h : kv.1 = k
  · simp [countKey, List.filter_cons, h]
    omega
  · simp [countKey, List.filter_cons, h]

/-- An upsert into a store holding at most one entry for the key leaves
exactly one entry for it. -/
theorem countKey_upsert {κ α : Type} [DecidableEq κ] (k : κ) (v : α)
    (l : List (κ × α)) (h : countKey k l ≤ 1) :
    countKey k (upsert k v l) = 1 := by
  induction l with
  | nil => simp [upsert, countKey]
  | cons kv rest ih =>
    rw [countKey_cons] at h
    by_cases hk : kv.1 = k
    · have hr : countKey k rest = 0 := by simp [hk] at h; omega
      simp [upsert, hk, countKey_cons, hr]
    · have hr : countKey k rest ≤ 1 := by simp [hk] at h; omega
      simp [upsert, hk, countKey_cons, ih hr]

/-- Persisting task statuses never touches the slot records. -/
theorem saveStatuses_executors_data (l : List TaskStatus) (st : SchedState) :
    (saveStatuses l st).executors_data = st.executors_data := by
  induction l generalizing st with
  | nil => rfl
  | cons ts rest ih => exact ih _

/-- Membership in the collected job set is exactly being the job id of
some reported task. -/
theorem mem_collectJobs (l : List TaskStatus) (j : String) :
    j ∈ collectJobs l ↔
      ∃ ts ∈ l, ∃ pid, ts.task_id = some pid ∧ pid.job_id = j := by
  have aux : ∀ (ll : List TaskStatus) (acc : List String),
      (j ∈ ll.foldl
          (fun acc ts =>
            match ts.task_id with
            | some pid => if pid.job_id ∈ acc then acc else acc ++ [pid.job_id]
            | none => acc)
          acc) ↔
        j ∈ acc ∨ ∃ ts ∈ ll, ∃ pid, ts.task_id = some pid ∧ pid.job_id = j := by
    intro ll
    induction ll with
    | nil => intro acc; simp
    | cons ts rest ih =>
      intro acc
      rw [List.foldl_cons, ih]
      cases hts : ts.task_id with
      | none => simp [hts]
      | some pid =>
        by_cases hmem : pid.job_id ∈ acc
        · simp only [hts, hmem, if_true, List.mem_cons]
          aesop
        · simp only [hts, hmem, if_false, List.mem_cons, List.mem_append,
            List.mem_singleton]
          aesop
  rw [collectJobs, aux]
  simp

/-- A second identical registration does not change the pool or the state. -/
theorem registerStep_idem (remote_host : String) (m : ExecutorRegistration)
    (ps : ExecutorsPool × SchedState) :
    registerStep remote_host m (registerStep remote_host m ps) =
      registerStep remote_host m ps := by
  rcases ps with ⟨pool, st⟩
  simp [registerStep, register_executor, mkMetadata, upsert_idem]

/-- When the assigned plan root is not a shuffle writer, `pollAssign`
fails with InvalidArgument. -/
theorem pollAssign_badPlan (st : SchedState) (eid : String) (s : TaskStatus)
    (nm : String)
    (h : (assignFirst st eid (runningJobs st)).1 = some (s, .otherExec nm)) :
    (pollAssign st eid).2
      = .error (.invalidArgument "Task root plan was not a ShuffleWriterExec") := by
  unfold pollAssign
  rcases hA : assignFirst st eid (runningJobs st) with ⟨o, st3⟩
  rw [hA] at h
  dsimp only at h
  subst h
  rfl

/-- When the first assignment of a sweep yields a plan whose root is not a
shuffle writer, the sweep fails with a general `BallistaError`. -/
theorem sweepExecs_badPlan (st2 : SchedState) (job : String) (e : ExecutorData)
    (rest : List ExecutorData) (s2 : TaskStatus) (nm2 : String)
    (he : e.available_task_slots ≠ 0)
    (h2 : (assign_next_schedulable_job_task st2 e.executor_id job).1
      = some (s2, .otherExec nm2)) :
    sweepExecs st2 job (e :: rest)
      = .error (.general "Task root plan was not a ShuffleWriterExec") := by
  rcases hA : assign_next_schedulable_job_task st2 e.executor_id job with ⟨o, st1⟩
  rw [hA] at h2
  dsimp only at h2
  subst h2
  simp [sweepExecs, he, hA]

/-- In a launch-loop trace, every `launchTask` event for an executor is
preceded by a `saveExecutorData` event for the same executor. -/
theorem launchLoop_save_before_launch
    (l : List (ExecutorData × List TaskDefinition)) (st : SchedState)
    (i : Nat) (e : String) (ts : List TaskDefinition)
    (h : (launchLoop st l).2.get? i = some (.launchTask e ts)) :
    ∃ j, j < i ∧ ∃ d : ExecutorData, d.executor_id = e ∧
      (launchLoop st l).2.get? j = some (.saveExecutorData d) := by
  induction l generalizing st i with
  | nil => simp [launchLoop] at h
  | cons p rest ih =>
    rcases p with ⟨ed, tasks⟩
    by_cases he : tasks.isEmpty
    · simp [launchLoop, he] at h
    · have hL : (launchLoop st ((ed, tasks) :: rest)).2
          = .saveExecutorData ed ::
            .launchTask ed.executor_id tasks ::
            (launchLoop
              { st with executors_data := upsert ed.executor_id ed st.executors_data }
              rest).2 := by
        rw [launchLoop]
        simp [he]
      rw [hL] at h ⊢
      cases i with
      | zero => simp [List.get?] at h
      | succ i1 =>
        cases i1 with
        | zero =>
          simp [List.get?] at h
          exact ⟨0, by omega, ed, h.1, by simp [List.get?]⟩
        | succ i2 =>
          rw [List.get?_cons_succ, List.get?_cons_succ] at h
          obtain ⟨j, hj, d, hd, hg⟩ := ih _ _ h
          exact ⟨j + 2, by omega, d, hd,
            by rw [List.get?_cons_succ, List.get?_cons_succ]; exact hg⟩

/-! Section: the claim theorems. -/

/-- C1: `update_task_status` credits `available_task_slots` by the raw
number of reported statuses, not by the number of tasks transitioning out
of Running. Evaluated at the failing input: the single reported task is
already terminal in the stored state (a pure replay), yet the executor is
credited one extra slot, going from 1 to 2 available; the claim requires
it to stay at 1. The statuses themselves are persisted unchanged and the
RPC still succeeds. -/
theorem updateTaskStatus_replay_overcredits :
    (update_task_status true c1_state c1_req).2.2 = .ok true ∧
    (update_task_status true c1_state c1_req).1.tasks = c1_state.tasks ∧
    lookupKey "exec1" (update_task_status true c1_state c1_req).1.executors_data
      = some ⟨"exec1", 2, 2⟩ ∧
    lookupKey "exec1" c1_state.executors_data = some ⟨"exec1", 2, 1⟩ := by
  refine ⟨rfl, ?_, ?_, rfl⟩ <;> decide

/-- C2: `get_job_status` returns the persisted `JobStatus` when one
exists, but on a missing job id it panics (`Option::unwrap` on `None`)
instead of failing with gRPC NotFound as the claim states. Evaluated at
the failing input (an empty store) and at a stored Queued job. -/
theorem getJobStatus_missing_panics :
    get_job_status emptyState "nojob" = .panicked ∧
    get_job_status (saveJobStatus emptyState "j1" .queued) "j1" = .ok .queued :=
  ⟨rfl, rfl⟩

/-- C3 counterexample: at a concrete state whose stage plan is not rooted
at a `ShuffleWriterExec`, pull-mode `poll_work` fails with gRPC
InvalidArgument — not Internal as the claim states — and push-mode
`fetch_tasks` fails with a general `BallistaError`, which its caller in
the dispatch loop unwraps rather than turning into any gRPC status. -/
theorem badPlan_not_internal_counterexample :
    (poll_work .pullStaged 0 "rh" c3_state c3_req).2
      = .error (.invalidArgument "Task root plan was not a ShuffleWriterExec")
    ∧ resultIsInternal (poll_work .pullStaged 0 "rh" c3_state c3_req).2 = false
    ∧ fetch_tasks c3_state [⟨"e1", 2, 2⟩] "j1"
      = .error (.general "Task root plan was not a ShuffleWriterExec") := by
  refine ⟨by decide, by decide, by decide⟩

/-- C3 (amended): whenever task assignment obtains a task whose
reconstituted plan is not rooted at a `ShuffleWriterExec`, the operation
fails — in pull-mode `poll_work` with gRPC InvalidArgument, and in
push-mode `fetch_tasks` with a general `BallistaError` returned to the
dispatch loop. -/
theorem badPlan_assignment_fails (now : Nat) (remote_host : String)
    (st : SchedState) (m : ExecutorRegistration) (statuses : List TaskStatus)
    (status : TaskStatus) (nm : String)
    (h1 : (assignFirst (pollWorkSaves now remote_host st m statuses) m.id
           (runningJobs (pollWorkSaves now remote_host st m statuses))).1
         = some (status, .otherExec nm))
    (st2 : SchedState) (e : ExecutorData) (rest : List ExecutorData)
    (job : String) (status2 : TaskStatus) (nm2 : String)
    (he : e.available_task_slots ≠ 0)
    (h2 : (assign_next_schedulable_job_task st2 e.executor_id job).1
          = some (status2, .otherExec nm2)) :
    (poll_work .pullStaged now remote_host st ⟨some m, true, statuses⟩).2
      = .error (.invalidArgument "Task root plan was not a ShuffleWriterExec")
    ∧ fetch_tasks st2 (e :: rest) job
        = .error (.general "Task root plan was not a ShuffleWriterExec") := by
  constructor
  · exact pollAssign_badPlan _ _ _ _ h1
  · have hs := sweepExecs_badPlan st2 job e rest status2 nm2 he h2
    simp [fetch_tasks, fetchLoop, hs]

/-- C3 witness: the amended theorem applied at the concrete bad-plan
state. -/
theorem badPlan_assignment_fails_witness :
    (0 : Nat) < 2 ∧
    (poll_work .pullStaged 0 "rh" c3_state c3_req).2
      = .error (.invalidArgument "Task root plan was not a ShuffleWriterExec") ∧
    fetch_tasks c3_state [⟨"e1", 2, 2⟩] "j1"
      = .error (.general "Task root plan was not a ShuffleWriterExec") :=
  have h := badPlan_assignment_fails 0 "rh" c3_state
    ⟨"e1", some "h", 50051, 50052, 2⟩ []
    ⟨some ⟨"j1", 0, 0⟩, some (.running "e1")⟩ "bad"
    (by decide)
    c3_state ⟨"e1", 2, 2⟩ [] "j1"
    ⟨some ⟨"j1", 0, 0⟩, some (.running "e1")⟩ "bad"
    (by decide) (by decide)
  ⟨by decide, h.1, h.2⟩

/-- C4: `execute_query` returns the job id successfully, and any failure
in the detached planning path — logical optimization, physical-plan
creation, query-stage planning, or stage/task persistence — persists
`JobStatus::Failed` carrying that error for the job and terminates
planning. -/
theorem executeQuery_background_failure_persists_failed
    (st st' : SchedState) (job : String)
    (optimizeRes : Except String Unit) (physicalRes : Except String ExecutionPlan)
    (planStages : ExecutionPlan → Except String (List Stage))
    (serr : Nat → Option String) (terr : PartitionId → Option String)
    (e : String)
    (hfail : (background_plan st' job optimizeRes physicalRes planStages serr terr).2
      = some e) :
    (execute_query st job true).2 = .ok job ∧
    lookupKey job
        (background_plan st' job optimizeRes physicalRes planStages serr terr).1.jobs
      = some (.failed e) := by
  refine ⟨rfl, ?_⟩
  unfold background_plan at hfail ⊢
  simp only [saveJobStatus] at hfail ⊢
  cases optimizeRes with
  | error e0 =>
    simp at hfail
    subst hfail
    simp [saveJobStatus, lookupKey_upsert_self]
  | ok u =>
    cases physicalRes with
    | error e0 =>
      simp at hfail
      subst hfail
      simp [saveJobStatus, lookupKey_upsert_self]
    | ok plan =>
      cases hps : planStages plan with
      | error e0 =>
        simp [hps] at hfail
        subst hfail
        simp [hps, saveJobStatus, lookupKey_upsert_self]
      | ok stages =>
        rcases hss : saveStages job serr terr stages
            { st' with jobs := upsert job JobStatusVariant.running st'.jobs }
          with ⟨st2, oe⟩
        cases oe with
        | none => simp [hps, hss] at hfail
        | some e0 =>
          simp [hps, hss] at hfail
          subst hfail
          simp [hps, hss, saveJobStatus, lookupKey_upsert_self]

/-- C4 witness: an optimizer failure `boom` at a concrete state persists
`Failed boom` while the RPC already returned the job id. -/
theorem executeQuery_background_failure_persists_failed_witness :
    (background_plan emptyState "j1" (.error "boom") (.ok (.otherExec "x"))
        (fun _ => .ok []) (fun _ => none) (fun _ => none)).2 = some "boom" ∧
    (execute_query emptyState "j1" true).2 = .ok "j1" ∧
    lookupKey "j1"
        (background_plan emptyState "j1" (.error "boom") (.ok (.otherExec "x"))
          (fun _ => .ok []) (fun _ => none) (fun _ => none)).1.jobs
      = some (.failed "boom") :=
  have h := executeQuery_background_failure_persists_failed emptyState emptyState
    "j1" (.error "boom") (.ok (.otherExec "x")) (fun _ => .ok []) (fun _ => none)
    (fun _ => none) "boom" rfl
  ⟨rfl, h.1, h.2⟩

/-- C5: in any trace produced by a successful `schedule_job` dispatch,
every outbound `LaunchTask` event is strictly preceded by the persistence
of the post-reservation slot record of the same executor. -/
theorem scheduleJob_saves_slots_before_launch (now window : Nat)
    (st st' : SchedState) (job : String) (evs : List DispatchEvent)
    (h : schedule_job now window st job = .ok (st', evs))
    (i : Nat) (e : String) (ts : List TaskDefinition)
    (hi : evs.get? i = some (.launchTask e ts)) :
    ∃ j, j < i ∧ ∃ d : ExecutorData, d.executor_id = e ∧
      evs.get? j = some (.saveExecutorData d) := by
  unfold schedule_job at h
  by_cases hav : (get_available_executors_data now window st).isEmpty = true
  · rw [if_pos hav] at h
    have hevs : evs = [.sleepMs 100, .enqueueJob job] := by
      injection h with h'
      injection h' with _ h2
      exact h2.symm
    subst hevs
    cases i with
    | zero => simp [List.get?] at hi
    | succ i1 =>
      cases i1 with
      | zero => simp [List.get?] at hi
      | succ i2 => simp [List.get?] at hi
  · rw [if_neg hav] at h
    rcases hf : fetch_tasks st (get_available_executors_data now window st) job with
      err | ⟨ret, num, execs', stf⟩
    · rw [hf] at h
      exact absurd h (by simp)
    · rw [hf] at h
      dsimp only at h
      by_cases hn : 0 < num
      · rw [if_pos hn] at h
        have hevs : evs = (launchLoop stf (execs'.zip ret)).2 := by
          injection h with h'
          rw [h']
        subst hevs
        exact launchLoop_save_before_launch _ _ _ _ _ hi
      · rw [if_neg hn] at h
        have hevs : evs = [] := by
          injection h with h'
          injection h' with _ h2
          exact h2.symm
        subst hevs
        simp [List.get?] at hi

/-- C5 witness: the theorem applied to the concrete dispatch of
`c5_state`, whose trace launches on executor `e1` at index 1 after the
slot save at index 0. -/
theorem scheduleJob_saves_slots_before_launch_witness :
    schedule_job 0 100 c5_state "j1" = .ok (c5_state_after, c5_evs) ∧
    c5_evs.get? 1
      = some (.launchTask "e1" [⟨[0, 0], some ⟨"j1", 0, 0⟩, some (.hash 1 2)⟩]) ∧
    ∃ j, j < 1 ∧ ∃ d : ExecutorData, d.executor_id = "e1" ∧
      c5_evs.get? j = some (.saveExecutorData d) :=
  ⟨by decide, by decide,
    scheduleJob_saves_slots_before_launch 0 100 c5_state c5_state_after "j1" c5_evs
      (by decide) 1 "e1" [⟨[0, 0], some ⟨"j1", 0, 0⟩, some (.hash 1 2)⟩] (by decide)⟩

/-- C6: when the snapshot of available executors is empty, `schedule_job`
sleeps 100 ms, re-enqueues the same job id, and returns successfully with
the state — and hence every job, stage, and task record — unchanged and
with no assignment or launch event in its trace. -/
theorem scheduleJob_backpressure (now window : Nat) (st : SchedState)
    (job : String)
    (h : get_available_executors_data now window st = []) :
    schedule_job now window st job = .ok (st, [.sleepMs 100, .enqueueJob job]) := by
  simp [schedule_job, h]

/-- C6 witness: the theorem applied to the empty state, whose executor
snapshot is empty. -/
theorem scheduleJob_backpressure_witness :
    get_available_executors_data 0 100 emptyState = [] ∧
    schedule_job 0 100 emptyState "j7" =
      .ok (emptyState, [.sleepMs 100, .enqueueJob "j7"]) :=
  ⟨rfl, scheduleJob_backpressure 0 100 emptyState "j7" rfl⟩

/-- C7: under the push-staged policy every `poll_work` request is rejected
with gRPC FailedPrecondition and the state is returned untouched — no
registration, heartbeat, status persistence, or task assignment. -/
theorem pollWork_push_rejected (now : Nat) (remote_host : String)
    (st : SchedState) (req : PollWorkParams) :
    poll_work .pushStaged now remote_host st req =
      (st, .error (.failedPrecondition
        "Bad request because poll work is not supported for push-based task scheduling")) :=
  rfl

/-- C8: a successful `register_executor` initializes the slot record with
`total = available = task_slots` and is idempotent: assuming the pool and
the stores hold at most one entry for the executor, after the call each
holds exactly one, and any number of further identical calls leaves the
pool and state exactly as after the first. -/
theorem registerExecutor_idempotent_init (remote_host : String)
    (pool : ExecutorsPool) (st : SchedState) (m : ExecutorRegistration)
    (hpool : countKey m.id pool ≤ 1)
    (hmeta : countKey m.id st.executors_metadata ≤ 1)
    (hdata : countKey m.id st.executors_data ≤ 1) :
    (register_executor true remote_host pool st ⟨some m⟩).2.2 = .ok true ∧
    lookupKey m.id
        (register_executor true remote_host pool st ⟨some m⟩).2.1.executors_data
      = some ⟨m.id, m.task_slots, m.task_slots⟩ ∧
    countKey m.id (register_executor true remote_host pool st ⟨some m⟩).1 = 1 ∧
    countKey m.id
        (register_executor true remote_host pool st ⟨some m⟩).2.1.executors_metadata
      = 1 ∧
    countKey m.id
        (register_executor true remote_host pool st ⟨some m⟩).2.1.executors_data
      = 1 ∧
    ∀ n : Nat, (registerStep remote_host m)^[n + 1] (pool, st)
      = registerStep remote_host m (pool, st) := by
  refine ⟨rfl, ?_, ?_, ?_, ?_, ?_⟩
  · simp [register_executor, mkMetadata, lookupKey_upsert_self]
  · simp [register_executor, mkMetadata]
    exact countKey_upsert _ _ _ hpool
  · simp [register_executor, mkMetadata]
    exact countKey_upsert _ _ _ hmeta
  · simp [register_executor, mkMetadata]
    exact countKey_upsert _ _ _ hdata
  · intro n
    induction n with
    | zero => simp
    | succ k ih =>
      rw [Function.iterate_succ_apply', ih, registerStep_idem]

/-- C8 witness: the theorem applied to an empty pool and state with a
3-slot executor, including the two-fold iterate. -/
theorem registerExecutor_idempotent_init_witness :
    countKey "e9" ([] : ExecutorsPool) ≤ 1 ∧
    (register_executor true "rh" [] emptyState
        ⟨some ⟨"e9", some "hh", 1, 2, 3⟩⟩).2.2 = .ok true ∧
    lookupKey "e9"
        (register_executor true "rh" [] emptyState
          ⟨some ⟨"e9", some "hh", 1, 2, 3⟩⟩).2.1.executors_data
      = some ⟨"e9", 3, 3⟩ ∧
    (registerStep "rh" ⟨"e9", some "hh", 1, 2, 3⟩)^[2] ([], emptyState)
      = registerStep "rh" ⟨"e9", some "hh", 1, 2, 3⟩ ([], emptyState) :=
  have h := registerExecutor_idempotent_init "rh" [] emptyState
    ⟨"e9", some "hh", 1, 2, 3⟩ (by decide) (by decide) (by decide)
  ⟨by decide, h.1, h.2.1, h.2.2.2.2.2 1⟩

/-- C9: `is_active` returns true exactly when some task in the store is
not terminal, that is, its status is neither Completed nor Failed;
Pending (unassigned) and Running tasks both count as active. -/
theorem isActive_iff_nonterminal (st : SchedState) :
    is_active st = true ↔
      ∃ t ∈ st.tasks,
        (∀ e, t.status ≠ some (.completed e)) ∧
        (∀ m, t.status ≠ some (.failed m)) := by
  unfold is_active
  rw [List.any_eq_true]
  constructor
  · rintro ⟨t, ht, hb⟩
    refine ⟨t, ht, ?_, ?_⟩
    · intro e he
      rw [he] at hb
      simp [terminalStatus] at hb
    · intro m hm
      rw [hm] at hb
      simp [terminalStatus] at hb
  · rintro ⟨t, ht, h1, h2⟩
    refine ⟨t, ht, ?_⟩
    cases hs : t.status with
    | none => simp [terminalStatus]
    | some v =>
      cases v with
      | running e => simp [terminalStatus]
      | completed e => exact absurd hs (h1 e)
      | failed m => exact absurd hs (h2 m)

/-- C10: when the reporting executor has no persisted slot record,
`update_task_status` still succeeds: the reported statuses are persisted,
the touched job ids are collected for the dispatch channel, and the slot
records are left untouched with no error surfaced. -/
theorem updateTaskStatus_unknown_executor (st : SchedState)
    (req : UpdateTaskStatusParams)
    (h : lookupKey req.executor_id st.executors_data = none) :
    (update_task_status true st req).2.2 = .ok true ∧
    (update_task_status true st req).1.executors_data = st.executors_data ∧
    (update_task_status true st req).1 = saveStatuses req.task_status st ∧
    (update_task_status true st req).2.1 = collectJobs req.task_status ∧
    ∀ j, j ∈ (update_task_status true st req).2.1 ↔
      ∃ ts ∈ req.task_status, ∃ pid, ts.task_id = some pid ∧ pid.job_id = j := by
  have hed : lookupKey req.executor_id
      (saveStatuses req.task_status st).executors_data = none := by
    rw [saveStatuses_executors_data]; exact h
  refine ⟨rfl, ?_, ?_, ?_, ?_⟩
  · simp [update_task_status, saveStatuses_executors_data, h, hed]
  · simp [update_task_status, saveStatuses_executors_data, h, hed]
  · rfl
  · intro j
    have hq : (update_task_status true st req).2.1 = collectJobs req.task_status := rfl
    rw [hq, mem_collectJobs]

/-- C10 witness: the theorem applied to an empty store and an unknown
executor id, whose touched job is collected for dispatch. -/
theorem updateTaskStatus_unknown_executor_witness :
    lookupKey "ghost" emptyState.executors_data = none ∧
    (update_task_status true emptyState
        ⟨"ghost", [⟨some ⟨"j1", 0, 0⟩, some (.completed "ghost")⟩]⟩).2.2
      = .ok true ∧
    (update_task_status true emptyState
        ⟨"ghost", [⟨some ⟨"j1", 0, 0⟩, some (.completed "ghost")⟩]⟩).1.executors_data
      = emptyState.executors_data ∧
    "j1" ∈ (update_task_status true emptyState
        ⟨"ghost", [⟨some ⟨"j1", 0, 0⟩, some (.completed "ghost")⟩]⟩).2.1 :=
  have h := updateTaskStatus_unknown_executor emptyState
    ⟨"ghost", [⟨some ⟨"j1", 0, 0⟩, some (.completed "ghost")⟩]⟩ rfl
  ⟨rfl, h.1, h.2.1,
    (h.2.2.2.2 "j1").mpr
      ⟨⟨some ⟨"j1", 0, 0⟩, some (.completed "ghost")⟩, by simp,
        ⟨"j1", 0, 0⟩, rfl, rfl⟩⟩

end BallistaScheduler
